import Mathlib

/-!
Verification of the CUE-to-M3U converter (`src/cue_to_m3u.py`).

This file gives a shallow embedding of the converter's core:
`CueToM3uConverter.parse_cue_file` (line-oriented CUE parsing),
`_calculate_durations`, `_index_to_seconds`, and `convert_to_m3u`
(M3U rendering), together with the POSIX path helpers (`os.path.abspath`,
`os.path.join`, `os.path.normpath`) that the renderer calls.

Conventions of the embedding:
* Python strings are modelled as `String` / `List Char`; the regular
  expressions of the source (`TRACK\s+(\d+)\s+(\w+)` etc.) are modelled by
  explicit matching functions over `List Char`.  Python's `\s`, `\d`, `\w`
  are Unicode-aware; the embedding uses their ASCII cores, which coincide
  with Python on every input appearing in the repository and in the claims.
* File I/O and the encoding-fallback chain of `parse_cue_file` are outside
  the embedding: parsing is modelled on the already decoded text.
* `os.path.abspath` depends on the process working directory; the embedding
  passes that directory (`cwd`) explicitly.
* All definitions are total structural recursions, so every function of the
  embedding terminates on all inputs; the Python pass likewise performs no
  raising operation on decoded text (every `int(...)` is guarded by a
  `\d+` regex group).
-/

namespace CueToM3u

/-! ### Character classes and low-level string helpers -/

/-- ASCII core of Python's `str.strip` / `\s` whitespace class:
space, tab, newline, carriage return, vertical tab, form feed. -/
def isPySpace (c : Char) : Bool :=
  c = ' ' || c = '\t' || c = '\n' || c = '\r' || c = '\x0b' || c = '\x0c'

/-- ASCII core of Python's `\d`. -/
def isPyDigit (c : Char) : Bool :=
  '0' ≤ c && c ≤ '9'

/-- ASCII core of Python's `\w` (letters, digits, underscore). -/
def isPyWord (c : Char) : Bool :=
  c.isAlpha || isPyDigit c || c = '_'

/-- Python `str.strip()`. -/
def pyStrip (l : List Char) : List Char :=
  ((l.dropWhile isPySpace).reverse.dropWhile isPySpace).reverse

/-- Value of a digit string, as computed by Python's `int(...)` on a
string matched by `\d+`. -/
def natOfDigits (l : List Char) : Nat :=
  l.foldl (fun a c => 10 * a + (c.toNat - 48)) 0

/-- Decimal digits of `n`, most significant first; fuel-based so that it is
a structural recursion (`digitsAux n n` always has enough fuel). -/
def digitsAux : Nat → Nat → List Char
  | 0, _ => []
  | _ + 1, 0 => []
  | fuel + 1, n + 1 =>
      digitsAux fuel ((n + 1) / 10) ++ [Nat.digitChar ((n + 1) % 10)]

/-- Python `str(n)` for a non-negative integer. -/
def pyRepr (n : Nat) : List Char :=
  if n = 0 then ['0'] else digitsAux n n

/-- Python `f"{n:02d}"` for a non-negative integer. -/
def fmt2 (n : Nat) : List Char :=
  if n < 10 then '0' :: pyRepr n else pyRepr n

/-- Python `str.split(sep)` for a one-character separator (also used to
split the decoded document into lines). -/
def splitOnChar (sep : Char) : List Char → List (List Char)
  | [] => [[]]
  | c :: cs =>
    if c = sep then [] :: splitOnChar sep cs
    else
      match splitOnChar sep cs with
      | [] => [[c]]
      | h :: t => (c :: h) :: t

/-- Match a literal prefix, returning the remainder on success. -/
def dropLit : List Char → List Char → Option (List Char)
  | [], l => some l
  | _ :: _, [] => none
  | c :: cs, d :: ds => if c = d then dropLit cs ds else none

/-- Python `str.startswith(pre)`. -/
def startsWithLit (pre : String) (l : List Char) : Bool :=
  (dropLit pre.data l).isSome

/-! ### The regular expressions of the parser -/

/-- `re.match(r'TRACK\s+(\d+)\s+(\w+)', line)`: on success, the value of
group 1 (the track number).  Group 2 is only required to exist; the source
never reads it.  All adjacent character classes of the pattern are
disjoint, so the greedy quantifiers perform maximal munch. -/
def trackMatch (l : List Char) : Option Nat :=
  match dropLit "TRACK".data l with
  | none => none
  | some r1 =>
    if (r1.takeWhile isPySpace).isEmpty then none
    else
      let r2 := r1.dropWhile isPySpace
      let ds := r2.takeWhile isPyDigit
      if ds.isEmpty then none
      else
        let r3 := r2.dropWhile isPyDigit
        if (r3.takeWhile isPySpace).isEmpty then none
        else
          match r3.dropWhile isPySpace with
          | c :: _ => if isPyWord c then some (natOfDigits ds) else none
          | [] => none

/-- `re.match(r'INDEX\s+(\d+)\s+(\d+):(\d+):(\d+)', line)`: on success,
group 1 (as the raw character list, compared against `'01'` by the source)
and the numeric values of groups 2–4. -/
def indexMatch (l : List Char) : Option (List Char × Nat × Nat × Nat) :=
  match dropLit "INDEX".data l with
  | none => none
  | some r1 =>
    if (r1.takeWhile isPySpace).isEmpty then none
    else
      let r2 := r1.dropWhile isPySpace
      let g1 := r2.takeWhile isPyDigit
      if g1.isEmpty then none
      else
        let r3 := r2.dropWhile isPyDigit
        if (r3.takeWhile isPySpace).isEmpty then none
        else
          let r4 := r3.dropWhile isPySpace
          let g2 := r4.takeWhile isPyDigit
          if g2.isEmpty then none
          else
            match r4.dropWhile isPyDigit with
            | ':' :: r5 =>
              let g3 := r5.takeWhile isPyDigit
              if g3.isEmpty then none
              else
                match r5.dropWhile isPyDigit with
                | ':' :: r6 =>
                  let g4 := r6.takeWhile isPyDigit
                  if g4.isEmpty then none
                  else some (g1, natOfDigits g2, natOfDigits g3, natOfDigits g4)
                | _ => none
            | _ => none

/-- Greedy search for the `(.+)"\s+(\w+)` tail of the FILE pattern: find
the longest nonempty newline-free prefix of `r` that is followed by a
closing quote, at least one whitespace character and at least one word
character; return that prefix (group 1) and the maximal word-character run
(group 2).  `k` counts down over candidate prefix lengths, so the longest
valid split is found first, matching the greedy `(.+)`. -/
def quoteSplit (r : List Char) : Nat → Option (List Char × List Char)
  | 0 => none
  | k + 1 =>
    match r.drop (k + 1) with
    | '"' :: rest =>
      if !(rest.takeWhile isPySpace).isEmpty
          && !((rest.dropWhile isPySpace).takeWhile isPyWord).isEmpty
          && !(r.take (k + 1)).contains '\n' then
        some (r.take (k + 1), (rest.dropWhile isPySpace).takeWhile isPyWord)
      else quoteSplit r k
    | _ => quoteSplit r k

/-- `re.match(r'FILE\s+"(.+)"\s+(\w+)', line)`: on success, the file name
(group 1) and file type (group 2). -/
def fileMatch (l : List Char) : Option (List Char × List Char) :=
  match dropLit "FILE".data l with
  | none => none
  | some r1 =>
    if (r1.takeWhile isPySpace).isEmpty then none
    else
      match r1.dropWhile isPySpace with
      | '"' :: r => quoteSplit r r.length
      | _ => none

/-- `_extract_quoted_value`: `re.search(r'"([^"]*)"', line)` — the text
between the first two double quotes of the line, or `""` if the line has
fewer than two. -/
def extractQuoted (l : List Char) : List Char :=
  let after := (l.dropWhile (· != '"')).drop 1
  if (after.dropWhile (· != '"')).isEmpty then []
  else after.takeWhile (· != '"')

/-! ### Data model (`CueTrack`, `CueSheet`) -/

/-- `CueTrack.__init__`: a single track; all fields default as in the
source (`number = 0`, empty strings, `duration = 0`). -/
structure CueTrack where
  number : Nat := 0
  title : String := ""
  performer : String := ""
  index : String := ""
  file : String := ""
  file_type : String := ""
  duration : Int := 0
deriving Repr, DecidableEq

/-- `CueSheet.__init__`: album-level metadata plus the track list. -/
structure CueSheet where
  title : String := ""
  performer : String := ""
  file : String := ""
  file_type : String := ""
  tracks : List CueTrack := []
deriving Repr, DecidableEq

/-- Parser state: the sheet built so far and the currently open track
(`current_track` in the source, `None` until the first TRACK line). -/
abbrev ParseState := CueSheet × Option CueTrack

/-- Commit the open track (if any) to the sheet's track list, as the
source does on a TRACK line and at end of input. -/
def commitTrack (st : ParseState) : CueSheet :=
  match st.2 with
  | some tr => { st.1 with tracks := st.1.tracks ++ [tr] }
  | none => st.1

/-- The stored form of a track's index timestamp:
`f"{minutes:02d}:{seconds:02d}:{frames:02d}"`. -/
def mkIndexStr (m s f : Nat) : String :=
  String.mk (fmt2 m ++ ':' :: fmt2 s ++ ':' :: fmt2 f)

/-- One iteration of the line loop of `parse_cue_file` (lines 79–129 of
the source): strip the line and dispatch on its directive prefix. -/
def processLine (st : ParseState) (raw : List Char) : ParseState :=
  let line := pyStrip raw
  if startsWithLit "TITLE" line then
    let v := String.mk (extractQuoted line)
    match st.2 with
    | some tr => (st.1, some { tr with title := v })
    | none => ({ st.1 with title := v }, none)
  else if startsWithLit "PERFORMER" line then
    let v := String.mk (extractQuoted line)
    match st.2 with
    | some tr => (st.1, some { tr with performer := v })
    | none => ({ st.1 with performer := v }, none)
  else if startsWithLit "FILE" line then
    match fileMatch line with
    | some (name, ty) =>
      match st.2 with
      | some tr =>
        (st.1, some { tr with file := String.mk name, file_type := String.mk ty })
      | none =>
        ({ st.1 with file := String.mk name, file_type := String.mk ty }, none)
    | none => st
  else if startsWithLit "TRACK" line then
    let sheet := commitTrack st
    match trackMatch line with
    | some n =>
      (sheet, some { number := n, file := sheet.file, file_type := sheet.file_type })
    | none => (sheet, some {})
  else if startsWithLit "INDEX" line && st.2.isSome then
    match st.2, indexMatch line with
    | some tr, some (g1, m, s, f) =>
      if g1 = ['0', '1'] then (st.1, some { tr with index := mkIndexStr m s f })
      else st
    | _, _ => st
  else st

/-- `_index_to_seconds`: split `MM:SS:FF` on `:` and compute
`minutes*60 + seconds + frames // 75`.  The source only ever calls this on
the digit-formatted strings stored by the parser, on which Python's
`int(...)` agrees with `natOfDigits`. -/
def index_to_seconds (index : String) : Int :=
  match splitOnChar ':' index.data with
  | [m, s, f] =>
    ((natOfDigits m * 60 + natOfDigits s + natOfDigits f / 75 : Nat) : Int)
  | _ => 0

/-- The update `_calculate_durations` applies to a track that has a
successor: if both timestamps are known, duration = end − start
(lines 148–156 of the source); otherwise the track is left unchanged. -/
def durStep (t nt : CueTrack) : CueTrack :=
  if t.index ≠ "" then
    if nt.index ≠ "" then
      { t with duration := index_to_seconds nt.index - index_to_seconds t.index }
    else t
  else t

/-- The update `_calculate_durations` applies to the final track: if its
timestamp is known, duration is set to 0 (lines 157–159); otherwise the
track is left unchanged. -/
def durLast (t : CueTrack) : CueTrack :=
  if t.index ≠ "" then { t with duration := 0 } else t

/-- `_calculate_durations`: the loop body for position `i` reads only
tracks `i` and `i+1`, so the in-place loop is the pairwise recursion. -/
def calculate_durations : List CueTrack → List CueTrack
  | [] => []
  | [t] => [durLast t]
  | t :: nt :: rest => durStep t nt :: calculate_durations (nt :: rest)

/-- The line loop of `parse_cue_file` followed by the final commit of the
open track (lines 79–133 of the source), before the duration pass. -/
def parse_pass1 (text : String) : CueSheet :=
  commitTrack ((splitOnChar '\n' text.data).foldl processLine ({}, none))

/-- `parse_cue_file`, on the decoded text of the document: fold the line
loop over the lines, commit the last open track, then run
`_calculate_durations`. -/
def parse_cue_file (text : String) : CueSheet :=
  { parse_pass1 text with tracks := calculate_durations (parse_pass1 text).tracks }

/-! ### POSIX path helpers used by the renderer (`os.path`) -/

/-- `os.path.join(a, b)` (posixpath, two arguments). -/
def pyJoin (a b : String) : String :=
  if b.data.head? = some '/' then b
  else if a = "" ∨ a.data.getLast? = some '/' then a ++ b
  else a ++ "/" ++ b

/-- Number of leading slashes preserved by `posixpath.normpath`:
1 normally, 2 for a path starting with exactly two slashes. -/
def normSlashes (p : List Char) : Nat :=
  match p with
  | '/' :: '/' :: '/' :: _ => 1
  | '/' :: '/' :: _ => 2
  | '/' :: _ => 1
  | _ => 0

/-- One step of `posixpath.normpath`'s component loop: skip empty and `.`
components, fold `..` into the accumulated components where possible. -/
def normStep (initialSlashes : Nat) (acc : List (List Char)) (comp : List Char) :
    List (List Char) :=
  if comp = [] ∨ comp = ['.'] then acc
  else if comp ≠ ['.', '.'] ∨ (initialSlashes = 0 ∧ acc = [])
      ∨ acc.getLast? = some ['.', '.'] then
    acc ++ [comp]
  else if acc ≠ [] then acc.dropLast
  else acc

/-- `posixpath.normpath`. -/
def normpath (p : String) : String :=
  if p = "" then "."
  else
    let slashes := normSlashes p.data
    let comps := (splitOnChar '/' p.data).foldl (normStep slashes) []
    let res := List.replicate slashes '/' ++ List.intercalate ['/'] comps
    if res = [] then "." else String.mk res

/-- `posixpath.isabs`. -/
def isAbs (p : String) : Bool :=
  p.data.head? = some '/'

/-- `os.path.abspath(p)` with the process working directory passed
explicitly: `normpath(p)` if `p` is absolute, else
`normpath(join(cwd, p))`. -/
def abspath (cwd p : String) : String :=
  if isAbs p then normpath p else normpath (pyJoin cwd p)

/-! ### The renderer (`convert_to_m3u`) -/

/-- Display title for a track (lines 181–190 of the source): the track's
performer falling back to the sheet's, combined with the title, or the
synthesized `Track NN`. -/
def display_title (sheet : CueSheet) (t : CueTrack) : String :=
  let performer := if t.performer ≠ "" then t.performer else sheet.performer
  if performer ≠ "" ∧ t.title ≠ "" then performer ++ " - " ++ t.title
  else if t.title ≠ "" then t.title
  else "Track " ++ String.mk (fmt2 t.number)

/-- The `wav_to_flac` rewrite (lines 198–199 of the source): if the last
three characters of the path are `wav`, replace them with `flac`. -/
def wav_to_flac_subst (wav_to_flac : Bool) (file_path : String) : String :=
  if wav_to_flac
      && String.mk (file_path.data.drop (file_path.data.length - 3)) = "wav" then
    String.mk (file_path.data.take (file_path.data.length - 3)) ++ "flac"
  else file_path

/-- The path line written for one track (lines 196–205 of the source):
apply the `wav_to_flac` rewrite, then write the path as-is when
`relative_paths` is set and the path is nonempty, else write
`os.path.abspath(path)`. -/
def render_path (relative_paths wav_to_flac : Bool) (cwd : String)
    (file : String) : String :=
  let fp := wav_to_flac_subst wav_to_flac file
  if relative_paths = true ∧ fp ≠ "" then fp ++ "\n"
  else abspath cwd fp ++ "\n"

/-- Everything `convert_to_m3u` writes for one track: an `#EXTINF` line
when `extended`, followed by the path line. -/
def render_track (sheet : CueSheet) (extended relative_paths wav_to_flac : Bool)
    (cwd : String) (t : CueTrack) : String :=
  (if extended then
    "#EXTINF:" ++ toString t.duration ++ "," ++ display_title sheet t ++ "\n"
  else "")
  ++ render_path relative_paths wav_to_flac cwd t.file

/-- `convert_to_m3u`, as the text written to the output file: optional
`#EXTM3U` header, then the per-track lines in track order. -/
def convert_to_m3u (sheet : CueSheet) (extended relative_paths wav_to_flac : Bool)
    (cwd : String) : String :=
  (if extended then "#EXTM3U\n" else "")
  ++ String.join (sheet.tracks.map (render_track sheet extended relative_paths wav_to_flac cwd))

/-! ### Definitions taken from the spec's words (for the claims that
compare the source against behaviour the spec describes) -/

/-- Modelled from the spec: a track's "effective file" — its own file, or
the sheet default if unset. -/
def spec_effective_file (sheet : CueSheet) (t : CueTrack) : String :=
  if t.file ≠ "" then t.file else sheet.file

/-- Modelled from the spec: single-file detection — every track's
effective file equals the first track's effective file.  No such detection
exists in the source; this definition is used only to state claims about
it. -/
def spec_single_file (sheet : CueSheet) : Bool :=
  match sheet.tracks with
  | [] => true
  | first :: _ =>
    sheet.tracks.all (fun t =>
      spec_effective_file sheet t = spec_effective_file sheet first)

/-- Modelled from the spec: the "extension" of a path — the text after the
last dot, empty when the path contains no dot.  Used only to state the
exact-extension-match claim that the source's last-three-characters test
violates. -/
def spec_extension (p : String) : String :=
  match (splitOnChar '.' p.data).reverse with
  | e :: _ :: _ => String.mk e
  | _ => ""

/-! ### Helpers for stating the track-list claims -/

/-- A line that the parser's TRACK branch handles: its stripped form
starts with `TRACK`. -/
def isTrackLine (l : List Char) : Bool :=
  startsWithLit "TRACK" (pyStrip l)

/-- The track number a TRACK line contributes: the matched `\d+` group,
or 0 when the line's body is malformed (the fresh `CueTrack()` keeps its
default number). -/
def lineNumVal (l : List Char) : Nat :=
  match trackMatch (pyStrip l) with
  | some n => n
  | none => 0

/-- The track numbers declared by the document's TRACK lines, in source
order. -/
def declaredTrackNums (text : String) : List Nat :=
  ((splitOnChar '\n' text.data).filter isTrackLine).map lineNumVal

/-- The track numbers held by a parser state: committed tracks then the
open track. -/
def stateNums (st : ParseState) : List Nat :=
  st.1.tracks.map CueTrack.number ++ (st.2.map CueTrack.number).toList

/-! ### Low-level lemmas -/

theorem dropLit_self_append (pre r : List Char) : dropLit pre (pre ++ r) = some r := by
  induction pre with
  | nil => rfl
  | cons c cs ih => simp [dropLit, ih]

theorem dropLit_eq_some {pre l r : List Char} (h : dropLit pre l = some r) :
    l = pre ++ r := by
  induction pre generalizing l with
  | nil =>
    simp only [List.nil_append]
    simpa [dropLit] using h
  | cons c cs ih =>
    cases l with
    | nil => simp [dropLit] at h
    | cons d ds =>
      simp only [dropLit] at h
      split at h
      · next heq => subst heq; simpa using ih h
      · exact absurd h (by simp)

theorem startsWithLit_iff {pre : String} {l : List Char} :
    startsWithLit pre l = true ↔ ∃ r, l = pre.data ++ r := by
  constructor
  · intro h
    unfold startsWithLit at h
    cases hd : dropLit pre.data l with
    | none => rw [hd] at h; simp at h
    | some r => exact ⟨r, dropLit_eq_some hd⟩
  · rintro ⟨r, rfl⟩
    unfold startsWithLit
    rw [dropLit_self_append]
    rfl

theorem title_not_track {l : List Char} (h : startsWithLit "TITLE" l = true) :
    startsWithLit "TRACK" l = false := by
  obtain ⟨r, rfl⟩ := startsWithLit_iff.1 h
  rfl

theorem performer_not_track {l : List Char} (h : startsWithLit "PERFORMER" l = true) :
    startsWithLit "TRACK" l = false := by
  obtain ⟨r, rfl⟩ := startsWithLit_iff.1 h
  rfl

theorem file_not_track {l : List Char} (h : startsWithLit "FILE" l = true) :
    startsWithLit "TRACK" l = false := by
  obtain ⟨r, rfl⟩ := startsWithLit_iff.1 h
  rfl

theorem trackMatch_isSome_dropLit {l : List Char} {n : Nat}
    (h : trackMatch l = some n) : ∃ r, l = "TRACK".data ++ r := by
  unfold trackMatch at h
  cases hd : dropLit "TRACK".data l with
  | none => rw [hd] at h; simp at h
  | some r => exact ⟨r, dropLit_eq_some hd⟩

theorem fileMatch_isSome_dropLit {l : List Char} {v : List Char × List Char}
    (h : fileMatch l = some v) : ∃ r, l = "FILE".data ++ r := by
  unfold fileMatch at h
  cases hd : dropLit "FILE".data l with
  | none => rw [hd] at h; simp at h
  | some r => exact ⟨r, dropLit_eq_some hd⟩

theorem splitOnChar_sepFree {sep : Char} {l : List Char} (h : ∀ c ∈ l, c ≠ sep) :
    splitOnChar sep l = [l] := by
  induction l with
  | nil => rfl
  | cons c cs ih =>
    have hc : c ≠ sep := h c (by simp)
    have ih2 := ih (fun d hd => h d (by simp [hd]))
    simp [splitOnChar, hc, ih2]

theorem splitOnChar_append_sep {sep : Char} (l r : List Char)
    (h : ∀ c ∈ l, c ≠ sep) :
    splitOnChar sep (l ++ sep :: r) = l :: splitOnChar sep r := by
  induction l with
  | nil => simp [splitOnChar]
  | cons c cs ih =>
    have hc : c ≠ sep := h c (by simp)
    have ih2 := ih (fun d hd => h d (by simp [hd]))
    simp only [List.cons_append, splitOnChar, if_neg hc, List.append_eq, ih2]

theorem isPyDigit_ne_colon {c : Char} (h : isPyDigit c = true) : c ≠ ':' := by
  rintro rfl
  exact absurd h (by decide)

/-! ### Branch-evaluation lemmas for `processLine` -/

theorem commitTrack_file (st : ParseState) : (commitTrack st).file = st.1.file := by
  rcases st with ⟨s, c⟩; cases c <;> rfl

theorem commitTrack_file_type (st : ParseState) :
    (commitTrack st).file_type = st.1.file_type := by
  rcases st with ⟨s, c⟩; cases c <;> rfl

theorem commitTrack_tracks (st : ParseState) :
    (commitTrack st).tracks = st.1.tracks ++ st.2.toList := by
  rcases st with ⟨s, c⟩; cases c <;> simp [commitTrack]

/-- Evaluation of the line loop on a well-formed TRACK line: the open
track is committed and a fresh track is opened with the matched number and
the sheet-level file context. -/
theorem processLine_track {raw : List Char} {n : Nat} (st : ParseState)
    (h : trackMatch (pyStrip raw) = some n) :
    processLine st raw =
      (commitTrack st,
        some { number := n, file := st.1.file, file_type := st.1.file_type }) := by
  obtain ⟨r, hr⟩ := trackMatch_isSome_dropLit h
  have hTitle : startsWithLit "TITLE" (pyStrip raw) = false := by rw [hr]; rfl
  have hPerf : startsWithLit "PERFORMER" (pyStrip raw) = false := by rw [hr]; rfl
  have hFile : startsWithLit "FILE" (pyStrip raw) = false := by rw [hr]; rfl
  have hTrack : startsWithLit "TRACK" (pyStrip raw) = true := by
    rw [hr]; exact startsWithLit_iff.2 ⟨r, rfl⟩
  simp only [processLine, hTitle, hPerf, hFile, hTrack, h, Bool.false_eq_true,
    if_false, if_true]
  rw [commitTrack_file, commitTrack_file_type]

/-- Evaluation of the line loop on a TRACK line whose body is malformed:
the open track is committed and a fresh all-default track is opened. -/
theorem processLine_track_bad {raw : List Char} (st : ParseState)
    (hpre : startsWithLit "TRACK" (pyStrip raw) = true)
    (hbad : trackMatch (pyStrip raw) = none) :
    processLine st raw = (commitTrack st, some {}) := by
  obtain ⟨r, hr⟩ := startsWithLit_iff.1 hpre
  have hTitle : startsWithLit "TITLE" (pyStrip raw) = false := by rw [hr]; rfl
  have hPerf : startsWithLit "PERFORMER" (pyStrip raw) = false := by rw [hr]; rfl
  have hFile : startsWithLit "FILE" (pyStrip raw) = false := by rw [hr]; rfl
  simp only [processLine, hTitle, hPerf, hFile, hpre, hbad, Bool.false_eq_true,
    if_false, if_true]

/-- Evaluation of the line loop on a well-formed FILE line while a track
is open: only the open track's file fields change; the sheet (and with it
the context inherited by later TRACK lines) is untouched. -/
theorem processLine_file_open {raw name ty : List Char} (sheet : CueSheet)
    (tr : CueTrack) (h : fileMatch (pyStrip raw) = some (name, ty)) :
    processLine (sheet, some tr) raw =
      (sheet, some { tr with file := String.mk name, file_type := String.mk ty }) := by
  obtain ⟨r, hr⟩ := fileMatch_isSome_dropLit h
  have hTitle : startsWithLit "TITLE" (pyStrip raw) = false := by rw [hr]; rfl
  have hPerf : startsWithLit "PERFORMER" (pyStrip raw) = false := by rw [hr]; rfl
  have hFile : startsWithLit "FILE" (pyStrip raw) = true := by
    rw [hr]; exact startsWithLit_iff.2 ⟨r, rfl⟩
  simp only [processLine, hTitle, hPerf, hFile, h, Bool.false_eq_true,
    if_false, if_true]

/-- Evaluation of the line loop on an unrecognized line: the state is
unchanged. -/
theorem processLine_unrecognized {raw : List Char} (st : ParseState)
    (h1 : startsWithLit "TITLE" (pyStrip raw) = false)
    (h2 : startsWithLit "PERFORMER" (pyStrip raw) = false)
    (h3 : startsWithLit "FILE" (pyStrip raw) = false)
    (h4 : startsWithLit "TRACK" (pyStrip raw) = false)
    (h5 : startsWithLit "INDEX" (pyStrip raw) = false) :
    processLine st raw = st := by
  simp only [processLine, h1, h2, h3, h4, h5, Bool.false_eq_true, if_false,
    Bool.false_and]

/-- Evaluation of the line loop on an INDEX line whose body is malformed:
the state is unchanged. -/
theorem processLine_index_bad {raw : List Char} (st : ParseState)
    (hpre : startsWithLit "INDEX" (pyStrip raw) = true)
    (hbad : indexMatch (pyStrip raw) = none) :
    processLine st raw = st := by
  obtain ⟨r, hr⟩ := startsWithLit_iff.1 hpre
  have hTitle : startsWithLit "TITLE" (pyStrip raw) = false := by rw [hr]; rfl
  have hPerf : startsWithLit "PERFORMER" (pyStrip raw) = false := by rw [hr]; rfl
  have hFile : startsWithLit "FILE" (pyStrip raw) = false := by rw [hr]; rfl
  have hTrack : startsWithLit "TRACK" (pyStrip raw) = false := by rw [hr]; rfl
  rcases st with ⟨sheet, cur⟩
  cases cur with
  | none =>
    simp only [processLine, hTitle, hPerf, hFile, hTrack, hpre,
      Bool.false_eq_true, if_false, Option.isSome_none, Bool.and_false]
  | some tr =>
    simp only [processLine, hTitle, hPerf, hFile, hTrack, hpre, hbad,
      Bool.false_eq_true, if_false, Option.isSome_some, Bool.and_true, if_true]

/-- Classification of one step of the line loop: a non-TRACK line leaves
the committed track list unchanged and preserves the open track's number
and duration; a TRACK line commits the open track and opens a fresh track
whose number is the line's declared number (0 when malformed) and whose
duration is the default 0. -/
theorem processLine_classify (st : ParseState) (raw : List Char) :
    (isTrackLine raw = false ∧ (processLine st raw).1.tracks = st.1.tracks ∧
      (processLine st raw).2.map CueTrack.number = st.2.map CueTrack.number ∧
      (processLine st raw).2.map CueTrack.duration = st.2.map CueTrack.duration)
    ∨ (isTrackLine raw = true ∧
        (processLine st raw).1.tracks = (commitTrack st).tracks ∧
        ∃ tr, (processLine st raw).2 = some tr ∧
          tr.number = lineNumVal raw ∧ tr.duration = 0) := by
  by_cases h4 : startsWithLit "TRACK" (pyStrip raw) = true
  · right
    refine ⟨h4, ?_⟩
    cases hm : trackMatch (pyStrip raw) with
    | some n =>
      rw [processLine_track st hm]
      exact ⟨rfl, _, rfl, by simp [lineNumVal, hm], rfl⟩
    | none =>
      rw [processLine_track_bad st h4 hm]
      exact ⟨rfl, _, rfl, by simp [lineNumVal, hm], rfl⟩
  · left
    have h4f : startsWithLit "TRACK" (pyStrip raw) = false := by
      revert h4; cases startsWithLit "TRACK" (pyStrip raw) <;> simp
    refine ⟨by simpa [isTrackLine] using h4f, ?_⟩
    rcases st with ⟨sheet, cur⟩
    by_cases h1 : startsWithLit "TITLE" (pyStrip raw) = true
    · cases cur <;> simp [processLine, h1]
    by_cases h2 : startsWithLit "PERFORMER" (pyStrip raw) = true
    · cases cur <;> simp [processLine, h1, h2]
    by_cases h3 : startsWithLit "FILE" (pyStrip raw) = true
    · cases hf : fileMatch (pyStrip raw) with
      | some v =>
        obtain ⟨name, ty⟩ := v
        cases cur <;> simp [processLine, h1, h2, h3, hf]
      | none => cases cur <;> simp [processLine, h1, h2, h3, hf]
    by_cases h5 : startsWithLit "INDEX" (pyStrip raw) = true
    · cases cur with
      | none => simp [processLine, h1, h2, h3, h4f, h5]
      | some tr =>
        cases him : indexMatch (pyStrip raw) with
        | some v =>
          obtain ⟨g1, m, s, f⟩ := v
          by_cases hg : g1 = ['0', '1'] <;>
            simp [processLine, h1, h2, h3, h4f, h5, him, hg]
        | none => simp [processLine, h1, h2, h3, h4f, h5, him]
    · cases cur <;> simp [processLine, h1, h2, h3, h4f, h5]

theorem commitTrack_map_number (st : ParseState) :
    (commitTrack st).tracks.map CueTrack.number = stateNums st := by
  rcases st with ⟨s, c⟩; cases c <;> simp [commitTrack, stateNums]

/-- The track numbers accumulated by the line loop are exactly the numbers
declared by the TRACK lines consumed, in source order. -/
theorem stateNums_foldl (ls : List (List Char)) (st : ParseState) :
    stateNums (ls.foldl processLine st) =
      stateNums st ++ (ls.filter isTrackLine).map lineNumVal := by
  induction ls generalizing st with
  | nil => simp
  | cons l ls ih =>
    rw [List.foldl_cons, ih]
    rcases processLine_classify st l with ⟨hF, htr, hnum, _⟩ | ⟨hT, htr, tr, h2, hn, _⟩
    · have hst : stateNums (processLine st l) = stateNums st := by
        unfold stateNums; rw [htr, hnum]
      rw [hst, List.filter_cons, if_neg (by simp [hF])]
    · have hst : stateNums (processLine st l) = stateNums st ++ [lineNumVal l] := by
        unfold stateNums
        rw [htr, commitTrack_tracks, h2]
        rcases st with ⟨sheet, cur⟩; cases cur <;> simp [hn]
      rw [hst, List.filter_cons, if_pos (by simp [hT])]
      simp

/-- Invariant: the parser never assigns a duration, so every track held in
the state keeps the constructor default `duration = 0`. -/
theorem durZero_foldl (ls : List (List Char)) (st : ParseState)
    (h1 : ∀ t ∈ st.1.tracks, t.duration = 0)
    (h2 : ∀ t, st.2 = some t → t.duration = 0) :
    (∀ t ∈ (ls.foldl processLine st).1.tracks, t.duration = 0) ∧
      (∀ t, (ls.foldl processLine st).2 = some t → t.duration = 0) := by
  induction ls generalizing st with
  | nil => exact ⟨h1, h2⟩
  | cons l ls ih =>
    rw [List.foldl_cons]
    refine ih (processLine st l) ?_ ?_
    · rcases processLine_classify st l with ⟨_, htr, _, _⟩ | ⟨_, htr, tr, _, _, _⟩
      · rw [htr]; exact h1
      · rw [htr, commitTrack_tracks]
        intro t ht
        rcases List.mem_append.1 ht with h | h
        · exact h1 t h
        · cases hcur : st.2 with
          | none => rw [hcur] at h; simp at h
          | some c0 =>
            rw [hcur] at h
            simp at h
            exact h ▸ h2 c0 hcur
    · rcases processLine_classify st l with ⟨_, _, _, hdur⟩ | ⟨_, _, tr, hsome, _, hd⟩
      · intro t ht
        rw [ht] at hdur
        cases hcur : st.2 with
        | none => rw [hcur] at hdur; simp at hdur
        | some t0 =>
          rw [hcur] at hdur
          simp at hdur
          rw [hdur]
          exact h2 t0 hcur
      · intro t ht
        rw [hsome] at ht
        cases ht
        exact hd

theorem parse_pass1_map_number (text : String) :
    (parse_pass1 text).tracks.map CueTrack.number = declaredTrackNums text := by
  unfold parse_pass1 declaredTrackNums
  rw [commitTrack_map_number, stateNums_foldl]
  rfl

theorem parse_pass1_durZero (text : String) :
    ∀ t ∈ (parse_pass1 text).tracks, t.duration = 0 := by
  unfold parse_pass1
  rw [commitTrack_tracks]
  have h := durZero_foldl (splitOnChar '\n' text.data) ({}, none)
    (by intro t ht; simp at ht) (by intro t ht; simp at ht)
  intro t ht
  rcases List.mem_append.1 ht with hm | hm
  · exact h.1 t hm
  · cases hcur : ((splitOnChar '\n' text.data).foldl processLine ({}, none)).2 with
    | none => rw [hcur] at hm; simp at hm
    | some c0 =>
      rw [hcur] at hm
      simp at hm
      exact hm ▸ h.2 c0 hcur

/-! ### Lemmas about the duration pass -/

theorem durStep_number (t nt : CueTrack) : (durStep t nt).number = t.number := by
  unfold durStep; split_ifs <;> rfl

theorem durLast_number (t : CueTrack) : (durLast t).number = t.number := by
  unfold durLast; split_ifs <;> rfl

theorem durStep_index (t nt : CueTrack) : (durStep t nt).index = t.index := by
  unfold durStep; split_ifs <;> rfl

theorem durLast_index (t : CueTrack) : (durLast t).index = t.index := by
  unfold durLast; split_ifs <;> rfl

theorem calculate_durations_map_number (l : List CueTrack) :
    (calculate_durations l).map CueTrack.number = l.map CueTrack.number := by
  induction l with
  | nil => rfl
  | cons t rest ih =>
    cases rest with
    | nil => simp [calculate_durations, durLast_number]
    | cons nt rest2 =>
      simp only [calculate_durations, List.map_cons, durStep_number] at ih ⊢
      rw [ih]

theorem calculate_durations_map_index (l : List CueTrack) :
    (calculate_durations l).map CueTrack.index = l.map CueTrack.index := by
  induction l with
  | nil => rfl
  | cons t rest ih =>
    cases rest with
    | nil => simp [calculate_durations, durLast_index]
    | cons nt rest2 =>
      simp only [calculate_durations, List.map_cons, durStep_index] at ih ⊢
      rw [ih]

theorem calculate_durations_getElem_pair {l : List CueTrack} {i : Nat}
    {t nt : CueTrack} (ht : l[i]? = some t) (hnt : l[i + 1]? = some nt) :
    (calculate_durations l)[i]? = some (durStep t nt) := by
  induction l generalizing i with
  | nil => simp at ht
  | cons a rest ih =>
    cases rest with
    | nil =>
      cases i with
      | zero => simp at hnt
      | succ j => simp at ht
    | cons b rest2 =>
      cases i with
      | zero =>
        simp only [List.getElem?_cons_zero, Option.some.injEq] at ht
        simp only [List.getElem?_cons_succ, List.getElem?_cons_zero,
          Option.some.injEq] at hnt
        subst ht; subst hnt
        simp [calculate_durations]
      | succ j =>
        rw [List.getElem?_cons_succ] at ht hnt
        simpa [calculate_durations] using ih ht hnt

theorem calculate_durations_getElem_last {l : List CueTrack} {i : Nat}
    {t : CueTrack} (ht : l[i]? = some t) (hnt : l[i + 1]? = none) :
    (calculate_durations l)[i]? = some (durLast t) := by
  induction l generalizing i with
  | nil => simp at ht
  | cons a rest ih =>
    cases rest with
    | nil =>
      cases i with
      | zero =>
        simp only [List.getElem?_cons_zero, Option.some.injEq] at ht
        subst ht
        rfl
      | succ j => simp at ht
    | cons b rest2 =>
      cases i with
      | zero => simp at hnt
      | succ j =>
        rw [List.getElem?_cons_succ] at ht hnt
        simpa [calculate_durations] using ih ht hnt

theorem parse_tracks_eq (text : String) :
    (parse_cue_file text).tracks = calculate_durations (parse_pass1 text).tracks := rfl

/-- The parsed track numbers are the numbers declared by the document's
TRACK lines, in source order. -/
theorem parse_map_number (text : String) :
    (parse_cue_file text).tracks.map CueTrack.number = declaredTrackNums text := by
  rw [parse_tracks_eq, calculate_durations_map_number, parse_pass1_map_number]

theorem calculate_durations_length (l : List CueTrack) :
    (calculate_durations l).length = l.length := by
  have h := congrArg List.length (calculate_durations_map_index l)
  simpa using h

theorem durLast_duration_zero {t : CueTrack} (h : t.duration = 0) :
    (durLast t).duration = 0 := by
  unfold durLast; split_ifs <;> simp [h]

theorem durStep_next_empty {t nt : CueTrack} (h : nt.index = "") :
    durStep t nt = t := by
  unfold durStep; simp [h]

theorem durStep_duration {t nt : CueTrack} (h1 : t.index ≠ "") (h2 : nt.index ≠ "") :
    (durStep t nt).duration =
      index_to_seconds nt.index - index_to_seconds t.index := by
  unfold durStep; simp [h1, h2]

/-- Relate an entry of the parsed (post-duration) track list to the
corresponding entry of the pre-duration list: same position, same index
string, and the pre-duration entry still has the default duration 0. -/
theorem parse_pre_getElem {text : String} {i : Nat} {t : CueTrack}
    (ht : (parse_cue_file text).tracks[i]? = some t) :
    ∃ pt, (parse_pass1 text).tracks[i]? = some pt ∧ pt.index = t.index ∧
      pt.duration = 0 := by
  rw [parse_tracks_eq] at ht
  have hi : i < (parse_pass1 text).tracks.length := by
    have h1 := (List.getElem?_eq_some_iff.1 ht).1
    rwa [calculate_durations_length] at h1
  obtain ⟨pt, hpt⟩ : ∃ pt, (parse_pass1 text).tracks[i]? = some pt :=
    ⟨_, List.getElem?_eq_some_iff.2 ⟨hi, rfl⟩⟩
  refine ⟨pt, hpt, ?_, ?_⟩
  · have h2 : ((calculate_durations (parse_pass1 text).tracks).map CueTrack.index)[i]?
        = ((parse_pass1 text).tracks.map CueTrack.index)[i]? := by
      rw [calculate_durations_map_index]
    rw [List.getElem?_map, List.getElem?_map, ht, hpt] at h2
    simpa using h2.symm
  · obtain ⟨h, heq⟩ := List.getElem?_eq_some_iff.1 hpt
    exact parse_pass1_durZero text pt (heq ▸ List.getElem_mem h)

/-- Entries past the end of the parsed list are also past the end of the
pre-duration list. -/
theorem parse_pre_getElem_none {text : String} {i : Nat}
    (h : (parse_cue_file text).tracks[i]? = none) :
    (parse_pass1 text).tracks[i]? = none := by
  rw [parse_tracks_eq] at h
  rw [List.getElem?_eq_none_iff] at h ⊢
  rwa [calculate_durations_length] at h

/-! ### The claims -/

/-- C1 (amended): in `parse_cue_file`, a track whose successor's timestamp
is unknown, and the final track, always receive duration 0 — regardless of
whether the sheet is single-file or multi-file.  The source has no
single-file detection and no 180-second placeholder. -/
theorem C1_duration_default_zero (text : String) (i : Nat) (t : CueTrack)
    (ht : (parse_cue_file text).tracks[i]? = some t)
    (hnext : (parse_cue_file text).tracks[i + 1]? = none ∨
      ∃ nt, (parse_cue_file text).tracks[i + 1]? = some nt ∧ nt.index = "") :
    t.duration = 0 := by
  obtain ⟨pt, hpt, hidx, hdur⟩ := parse_pre_getElem ht
  rw [parse_tracks_eq] at ht
  rcases hnext with hnone | ⟨nt, hsome, hnidx⟩
  · have hpn := parse_pre_getElem_none hnone
    have hres := calculate_durations_getElem_last hpt hpn
    rw [ht] at hres
    rw [Option.some.inj hres]
    exact durLast_duration_zero hdur
  · obtain ⟨pnt, hpnt, hnidx2, _⟩ := parse_pre_getElem hsome
    have hres := calculate_durations_getElem_pair hpt hpnt
    rw [ht] at hres
    rw [Option.some.inj hres, durStep_next_empty (by rw [hnidx2, hnidx])]
    exact hdur

/-- Witness for C1's amended theorem at a concrete one-track document. -/
theorem C1_duration_default_zero_witness :
    (parse_cue_file "TRACK 07 AUDIO").tracks[0]? = some ⟨7, "", "", "", "", "", 0⟩ ∧
    (⟨7, "", "", "", "", "", 0⟩ : CueTrack).duration = 0 :=
  ⟨by decide, C1_duration_default_zero "TRACK 07 AUDIO" 0 _ (by decide)
    (Or.inl (by decide))⟩

/-- C1 (counterexample): a sheet that is single-file in the spec's sense
(every track's effective file equals the first track's) still gets
duration 0 — not the claimed 180-second placeholder — for its final
track. -/
theorem C1_single_file_counterexample :
    spec_single_file
      (parse_cue_file "FILE \"a.flac\" WAVE\nTRACK 01 AUDIO\nINDEX 01 00:00:00")
      = true ∧
    (parse_cue_file "FILE \"a.flac\" WAVE\nTRACK 01 AUDIO\nINDEX 01 00:00:00").tracks.map
      CueTrack.duration = [0] ∧
    (0 : Int) ≠ 180 := by
  refine ⟨by decide, by decide, by decide⟩

/-- C2 (amended): a track whose effective file path is empty at render
time gets `os.path.abspath("")` — the process working directory — as its
path line, for every option combination.  No inline error marker exists in
the source, and no exception is raised (the renderer is a total
function). -/
theorem C2_empty_path_renders_cwd (r w : Bool) (cwd : String) :
    render_path r w cwd "" = abspath cwd "" ++ "\n" := by
  cases r <;> cases w <;> rfl

/-- C2 (counterexample): a TRACK with no FILE in scope renders, with all
default options and working directory `/cwd`, as a plain `/cwd` path
line — a silently invalid line, not a visible inline error marker. -/
theorem C2_no_marker_counterexample :
    (parse_cue_file "TRACK 01 AUDIO\nTITLE \"X\"").tracks.map CueTrack.file = [""] ∧
    convert_to_m3u (parse_cue_file "TRACK 01 AUDIO\nTITLE \"X\"") true true true "/cwd"
      = "#EXTM3U\n#EXTINF:0,X\n/cwd\n" ∧
    abspath "/cwd" "" = "/cwd" := by
  refine ⟨by decide, by decide, by decide⟩

/-- C3 (amended): absolute-path rendering resolves a relative reference
with `os.path.abspath`, i.e. against the process working directory passed
to the renderer — the directory containing the CUE document plays no
role. -/
theorem C3_resolves_against_cwd (w : Bool) (cwd f : String)
    (habs : isAbs (wav_to_flac_subst w f) = false) :
    render_path false w cwd f =
      normpath (pyJoin cwd (wav_to_flac_subst w f)) ++ "\n" := by
  simp [render_path, abspath, habs]

/-- Witness for C3's amended theorem. -/
theorem C3_resolves_against_cwd_witness :
    isAbs (wav_to_flac_subst false "a.flac") = false ∧
    render_path false false "/music" "a.flac" =
      normpath (pyJoin "/music" (wav_to_flac_subst false "a.flac")) ++ "\n" :=
  ⟨by decide, C3_resolves_against_cwd false "/music" "a.flac" (by decide)⟩

/-- C3 (counterexample): the same parsed document, rendered with absolute
paths from two different working directories, yields two different
playlists, each resolving the relative `a.flac` against the working
directory — so the reference is not resolved against the (fixed) directory
of the CUE document. -/
theorem C3_cwd_counterexample :
    convert_to_m3u (parse_cue_file "FILE \"a.flac\" WAVE\nTRACK 01 AUDIO")
      false false false "/elsewhere" = "/elsewhere/a.flac\n" ∧
    convert_to_m3u (parse_cue_file "FILE \"a.flac\" WAVE\nTRACK 01 AUDIO")
      false false false "/music" = "/music/a.flac\n" ∧
    ("/elsewhere/a.flac" : String) ≠ "/music/a.flac" := by
  refine ⟨by decide, by decide, by decide⟩

/-- C4 (amended): the `wav_to_flac` rewrite fires exactly when the last
three characters of the path are `wav`, replacing them with `flac`.  Hence
`.wav` becomes `.flac` and `.wave` is untouched, as the claim's examples
say — but the test is on the last three characters, not on the extension:
any path ending in the letters `wav` (such as `awav`) is rewritten too. -/
theorem C4_last_three_characters (p : List Char) (q : String)
    (hq : String.mk (q.data.drop (q.data.length - 3)) ≠ "wav") :
    wav_to_flac_subst true (String.mk p ++ ".wav") = String.mk p ++ ".flac" ∧
    wav_to_flac_subst true (String.mk p ++ ".wave") = String.mk p ++ ".wave" ∧
    wav_to_flac_subst true q = q := by
  refine ⟨?_, ?_, ?_⟩
  · have hdata : (String.mk p ++ ".wav").data = p ++ ['.', 'w', 'a', 'v'] := rfl
    have h1 : (p ++ ['.', 'w', 'a', 'v']).length - 3 = p.length + 1 := by simp
    have hdrop : (p ++ ['.', 'w', 'a', 'v']).drop (p.length + 1) = ['w', 'a', 'v'] := by
      simp
    have htake : (p ++ ['.', 'w', 'a', 'v']).take (p.length + 1) = p ++ ['.'] := by
      simpa using @List.take_append Char p ['.', 'w', 'a', 'v'] 1
    simp only [wav_to_flac_subst, hdata, h1, hdrop, htake]
    rw [if_pos (by decide)]
    show String.mk ((p ++ ['.']) ++ ['f', 'l', 'a', 'c'])
      = String.mk (p ++ ['.', 'f', 'l', 'a', 'c'])
    rw [List.append_assoc]
    rfl
  · have hdata : (String.mk p ++ ".wave").data = p ++ ['.', 'w', 'a', 'v', 'e'] := rfl
    have h1 : (p ++ ['.', 'w', 'a', 'v', 'e']).length - 3 = p.length + 2 := by simp
    have hdrop : (p ++ ['.', 'w', 'a', 'v', 'e']).drop (p.length + 2) = ['a', 'v', 'e'] := by
      simp
    simp only [wav_to_flac_subst, hdata, h1, hdrop]
    rw [if_neg (by decide)]
  · unfold wav_to_flac_subst
    split_ifs with h
    · exact absurd (by simpa using h) hq
    · rfl

/-- Witness for C4's amended theorem. -/
theorem C4_last_three_characters_witness :
    String.mk (("song.mp3" : String).data.drop (("song.mp3" : String).data.length - 3))
      ≠ "wav" ∧
    (wav_to_flac_subst true (String.mk ['a'] ++ ".wav") = String.mk ['a'] ++ ".flac" ∧
      wav_to_flac_subst true (String.mk ['a'] ++ ".wave") = String.mk ['a'] ++ ".wave" ∧
      wav_to_flac_subst true "song.mp3" = "song.mp3") :=
  ⟨by decide, C4_last_three_characters ['a'] "song.mp3" (by decide)⟩

/-- C4 (counterexample): the path `awav`, whose extension is not `wav`
(it has no extension at all), is not left untouched: the renderer rewrites
it to `aflac`.  Moreover `a.flac`, whose extension is not `wav` either,
renders ending in `.flac`, so "ends in .flac exactly when the extension is
wav" fails in both directions. -/
theorem C4_extension_counterexample :
    wav_to_flac_subst true "awav" = "aflac" ∧
    spec_extension "awav" ≠ "wav" ∧
    ("aflac" : String) ≠ "awav" ∧
    wav_to_flac_subst true "a.flac" = "a.flac" ∧
    spec_extension "a.flac" ≠ "wav" ∧
    List.isSuffixOf ".flac".data ("a.flac" : String).data = true := by
  refine ⟨by decide, by decide, by decide, by decide, by decide, by decide⟩

/-- C5: for digit-string timestamps `MM:SS:FF` (with FF at most 74, as in
the claim), `_index_to_seconds` computes `MM*60 + SS + FF/75`; in
particular `"03:02:37"` gives 182.  For consecutive parsed tracks that
both carry timestamps, duration(i) is seconds(timestamp(i+1)) minus
seconds(timestamp(i)); the index sequence 00:00:00, 03:30:00, 07:15:50
yields durations 210 and 225 (and 0 for the final track). -/
theorem C5_timestamps_and_durations (m s f : List Char) (text : String)
    (i : Nat) (t nt : CueTrack)
    (hm : ∀ c ∈ m, isPyDigit c = true)
    (hs : ∀ c ∈ s, isPyDigit c = true)
    (hf : ∀ c ∈ f, isPyDigit c = true)
    (hff : natOfDigits f ≤ 74)
    (ht : (parse_cue_file text).tracks[i]? = some t)
    (hnt : (parse_cue_file text).tracks[i + 1]? = some nt)
    (hti : t.index ≠ "") (hnti : nt.index ≠ "") :
    index_to_seconds (String.mk (m ++ ':' :: (s ++ ':' :: f))) =
      ((natOfDigits m * 60 + natOfDigits s + natOfDigits f / 75 : Nat) : Int) ∧
    index_to_seconds "03:02:37" = 182 ∧
    t.duration = index_to_seconds nt.index - index_to_seconds t.index ∧
    (parse_cue_file ("TRACK 01 AUDIO\nINDEX 01 00:00:00\nTRACK 02 AUDIO\n" ++
        "INDEX 01 03:30:00\nTRACK 03 AUDIO\nINDEX 01 07:15:50")).tracks.map
      CueTrack.duration = [210, 225, 0] := by
  refine ⟨?_, by decide, ?_, by decide⟩
  · unfold index_to_seconds
    have hdata : (String.mk (m ++ ':' :: (s ++ ':' :: f))).data
        = m ++ ':' :: (s ++ ':' :: f) := rfl
    have hsplit : splitOnChar ':' (m ++ ':' :: (s ++ ':' :: f)) = [m, s, f] := by
      rw [splitOnChar_append_sep m _ (fun c hc => isPyDigit_ne_colon (hm c hc)),
        splitOnChar_append_sep s _ (fun c hc => isPyDigit_ne_colon (hs c hc)),
        splitOnChar_sepFree (fun c hc => isPyDigit_ne_colon (hf c hc))]
    rw [hdata, hsplit]
  · obtain ⟨pt, hpt, hidxt, _⟩ := parse_pre_getElem ht
    obtain ⟨pnt, hpnt, hidxnt, _⟩ := parse_pre_getElem hnt
    have hti2 : pt.index ≠ "" := by rw [hidxt]; exact hti
    have hnti2 : pnt.index ≠ "" := by rw [hidxnt]; exact hnti
    have hres := calculate_durations_getElem_pair hpt hpnt
    rw [parse_tracks_eq] at ht
    rw [ht] at hres
    have ht2 := Option.some.inj hres
    subst ht2
    rw [durStep_duration hti2 hnti2, durStep_index, hidxnt]

/-- Witness for C5 at the concrete three-track document of the claim. -/
theorem C5_timestamps_and_durations_witness :
    index_to_seconds (String.mk (['0', '3'] ++ ':' :: (['0', '2'] ++ ':' :: ['3', '7']))) =
      ((natOfDigits ['0', '3'] * 60 + natOfDigits ['0', '2'] +
        natOfDigits ['3', '7'] / 75 : Nat) : Int) ∧
    index_to_seconds "03:02:37" = 182 ∧
    (⟨1, "", "", "00:00:00", "", "", 210⟩ : CueTrack).duration =
      index_to_seconds (⟨2, "", "", "03:30:00", "", "", 225⟩ : CueTrack).index -
        index_to_seconds (⟨1, "", "", "00:00:00", "", "", 210⟩ : CueTrack).index ∧
    (parse_cue_file ("TRACK 01 AUDIO\nINDEX 01 00:00:00\nTRACK 02 AUDIO\n" ++
        "INDEX 01 03:30:00\nTRACK 03 AUDIO\nINDEX 01 07:15:50")).tracks.map
      CueTrack.duration = [210, 225, 0] :=
  C5_timestamps_and_durations ['0', '3'] ['0', '2'] ['3', '7']
    ("TRACK 01 AUDIO\nINDEX 01 00:00:00\nTRACK 02 AUDIO\n" ++
      "INDEX 01 03:30:00\nTRACK 03 AUDIO\nINDEX 01 07:15:50") 0
    ⟨1, "", "", "00:00:00", "", "", 210⟩ ⟨2, "", "", "03:30:00", "", "", 225⟩
    (by decide) (by decide) (by decide) (by decide) (by decide) (by decide)
    (by decide) (by decide)

/-- C6: a well-formed `TRACK <int> <word>` line commits the previously
open track (if any) to the sheet's track list and opens a new track whose
file and file-type are copied from the sheet-level context at that point;
a well-formed FILE line seen while a track is open updates only that
track, leaving the sheet-level context (which later TRACK lines inherit)
unchanged. -/
theorem C6_track_commit_and_inheritance (sheet : CueSheet)
    (cur : Option CueTrack) (tr : CueTrack) (rawT rawF : List Char) (n : Nat)
    (name ty : List Char)
    (hT : trackMatch (pyStrip rawT) = some n)
    (hF : fileMatch (pyStrip rawF) = some (name, ty)) :
    processLine (sheet, cur) rawT =
      (commitTrack (sheet, cur),
        some { number := n, file := sheet.file, file_type := sheet.file_type }) ∧
    processLine (sheet, some tr) rawF =
      (sheet, some { tr with file := String.mk name, file_type := String.mk ty }) :=
  ⟨processLine_track _ hT, processLine_file_open _ _ hF⟩

/-- Witness for C6 on concrete TRACK and FILE lines. -/
theorem C6_track_commit_and_inheritance_witness :
    trackMatch (pyStrip "TRACK 05 AUDIO".data) = some 5 ∧
    fileMatch (pyStrip "FILE \"b.mp3\" MP3".data) = some ("b.mp3".data, "MP3".data) ∧
    (processLine ((⟨"", "", "x.flac", "WAVE", []⟩ : CueSheet), none)
        "TRACK 05 AUDIO".data =
      (commitTrack ((⟨"", "", "x.flac", "WAVE", []⟩ : CueSheet), none),
        some ⟨5, "", "", "", "x.flac", "WAVE", 0⟩) ∧
    processLine ((⟨"", "", "x.flac", "WAVE", []⟩ : CueSheet),
        some (⟨5, "", "", "", "", "", 0⟩ : CueTrack)) "FILE \"b.mp3\" MP3".data =
      ((⟨"", "", "x.flac", "WAVE", []⟩ : CueSheet),
        some ⟨5, "", "", "", String.mk "b.mp3".data, String.mk "MP3".data, 0⟩)) :=
  ⟨by decide, by decide,
    C6_track_commit_and_inheritance ⟨"", "", "x.flac", "WAVE", []⟩
      none ⟨5, "", "", "", "", "", 0⟩ "TRACK 05 AUDIO".data
      "FILE \"b.mp3\" MP3".data 5 "b.mp3".data "MP3".data
      (by decide) (by decide)⟩

/-- C7 (counterexample): the parser does not enforce uniqueness or
monotonicity of track positions — a document declaring TRACK 02 before
TRACK 01 parses to positions [2, 1], and duplicate TRACK 01 lines parse to
[1, 1]. -/
theorem C7_positions_counterexample :
    (parse_cue_file "TRACK 02 AUDIO\nTRACK 01 AUDIO").tracks.map CueTrack.number
      = [2, 1] ∧
    ¬ List.Chain' (fun a b => a < b)
        ((parse_cue_file "TRACK 02 AUDIO\nTRACK 01 AUDIO").tracks.map
          CueTrack.number) ∧
    (parse_cue_file "TRACK 01 AUDIO\nTRACK 01 AUDIO").tracks.map CueTrack.number
      = [1, 1] ∧
    ¬ List.Pairwise (fun a b => a ≠ b)
        ((parse_cue_file "TRACK 01 AUDIO\nTRACK 01 AUDIO").tracks.map
          CueTrack.number) := by
  have h1 : (parse_cue_file "TRACK 02 AUDIO\nTRACK 01 AUDIO").tracks.map
      CueTrack.number = [2, 1] := by decide
  have h2 : (parse_cue_file "TRACK 01 AUDIO\nTRACK 01 AUDIO").tracks.map
      CueTrack.number = [1, 1] := by decide
  refine ⟨h1, ?_, h2, ?_⟩
  · rw [h1]
    simp [List.chain'_cons]
  · rw [h2]
    intro hp
    exact List.rel_of_pairwise_cons hp (by simp) rfl

/-- C7 (amended): the parsed positions are exactly the numbers declared by
the document's TRACK lines in source order; they are strictly increasing
and pairwise distinct precisely when the document declares them so — the
parser itself enforces nothing. -/
theorem C7_positions_amended (text : String)
    (h : List.Chain' (· < ·) (declaredTrackNums text)) :
    List.Chain' (· < ·) ((parse_cue_file text).tracks.map CueTrack.number) ∧
    List.Pairwise (· ≠ ·) ((parse_cue_file text).tracks.map CueTrack.number) := by
  rw [parse_map_number]
  exact ⟨h, (List.chain'_iff_pairwise.1 h).imp Nat.ne_of_lt⟩

/-- Witness for C7's amended theorem on an increasing document. -/
theorem C7_positions_amended_witness :
    List.Chain' (· < ·) (declaredTrackNums "TRACK 01 AUDIO\nTRACK 02 AUDIO") ∧
    (List.Chain' (· < ·)
        ((parse_cue_file "TRACK 01 AUDIO\nTRACK 02 AUDIO").tracks.map
          CueTrack.number) ∧
      List.Pairwise (· ≠ ·)
        ((parse_cue_file "TRACK 01 AUDIO\nTRACK 02 AUDIO").tracks.map
          CueTrack.number)) :=
  have h : List.Chain' (· < ·) (declaredTrackNums "TRACK 01 AUDIO\nTRACK 02 AUDIO") := by
    have he : declaredTrackNums "TRACK 01 AUDIO\nTRACK 02 AUDIO" = [1, 2] := by decide
    rw [he]
    simp [List.chain'_cons]
  ⟨h, C7_positions_amended "TRACK 01 AUDIO\nTRACK 02 AUDIO" h⟩

/-- C8: parsing is best-effort line-by-line and total on decoded text (the
embedding is a total function, and every `int(...)` of the source is
guarded by a `\d+` group): an unrecognized line leaves the state
unchanged; a TRACK line with a malformed body still commits the previous
track but opens an all-default track; an INDEX line with a malformed body
leaves the state unchanged. -/
theorem C8_tolerant_line_handling (st : ParseState) (raw rawT rawI : List Char)
    (h1 : startsWithLit "TITLE" (pyStrip raw) = false)
    (h2 : startsWithLit "PERFORMER" (pyStrip raw) = false)
    (h3 : startsWithLit "FILE" (pyStrip raw) = false)
    (h4 : startsWithLit "TRACK" (pyStrip raw) = false)
    (h5 : startsWithLit "INDEX" (pyStrip raw) = false)
    (hTpre : startsWithLit "TRACK" (pyStrip rawT) = true)
    (hTbad : trackMatch (pyStrip rawT) = none)
    (hIpre : startsWithLit "INDEX" (pyStrip rawI) = true)
    (hIbad : indexMatch (pyStrip rawI) = none) :
    processLine st raw = st ∧
    processLine st rawT = (commitTrack st, some {}) ∧
    processLine st rawI = st :=
  ⟨processLine_unrecognized st h1 h2 h3 h4 h5,
    processLine_track_bad st hTpre hTbad,
    processLine_index_bad st hIpre hIbad⟩

/-- Witness for C8 on a REM line, a malformed TRACK line and a malformed
INDEX line. -/
theorem C8_tolerant_line_handling_witness :
    startsWithLit "TITLE" (pyStrip "REM COMMENT".data) = false ∧
    startsWithLit "TRACK" (pyStrip "TRACK one AUDIO".data) = true ∧
    trackMatch (pyStrip "TRACK one AUDIO".data) = none ∧
    startsWithLit "INDEX" (pyStrip "INDEX 01 0s:00:00".data) = true ∧
    indexMatch (pyStrip "INDEX 01 0s:00:00".data) = none ∧
    (processLine (({} : CueSheet), none) "REM COMMENT".data = (({} : CueSheet), none) ∧
      processLine (({} : CueSheet), none) "TRACK one AUDIO".data =
        (commitTrack (({} : CueSheet), none), some {}) ∧
      processLine (({} : CueSheet), none) "INDEX 01 0s:00:00".data =
        (({} : CueSheet), none)) :=
  ⟨by decide, by decide, by decide, by decide, by decide,
    C8_tolerant_line_handling (({} : CueSheet), none) "REM COMMENT".data
      "TRACK one AUDIO".data "INDEX 01 0s:00:00".data (by decide) (by decide)
      (by decide) (by decide) (by decide) (by decide) (by decide) (by decide)
      (by decide)⟩

/-- C9: rendering is a pure function of the parsed sheet, the options and
the process working directory — rendering the same sheet twice with
identical options yields byte-identical output. -/
theorem C9_render_deterministic (sheet sheet2 : CueSheet) (e r w : Bool)
    (cwd : String) (h : sheet = sheet2) :
    convert_to_m3u sheet e r w cwd = convert_to_m3u sheet2 e r w cwd := by
  rw [h]

/-- Witness for C9 on a concrete parsed sheet. -/
theorem C9_render_deterministic_witness :
    parse_cue_file "TRACK 01 AUDIO" = parse_cue_file "TRACK 01 AUDIO" ∧
    convert_to_m3u (parse_cue_file "TRACK 01 AUDIO") true true true "/d" =
      convert_to_m3u (parse_cue_file "TRACK 01 AUDIO") true true true "/d" :=
  ⟨rfl, C9_render_deterministic (parse_cue_file "TRACK 01 AUDIO")
    (parse_cue_file "TRACK 01 AUDIO") true true true "/d" rfl⟩

/-- C10: the parsed sheet holds exactly one committed track per line whose
stripped form starts with `TRACK`, in source order (the parsed numbers are
the declared numbers in order, and the counts agree); a TRACK line whose
body does not match `<int> <word>` still opens a track, but that track is
all-default — number 0 and empty file/file-type, with no inheritance of
the sheet-level file context. -/
theorem C10_one_track_per_line (text : String) (st : ParseState)
    (raw : List Char)
    (hpre : startsWithLit "TRACK" (pyStrip raw) = true)
    (hbad : trackMatch (pyStrip raw) = none) :
    (parse_cue_file text).tracks.map CueTrack.number = declaredTrackNums text ∧
    (parse_cue_file text).tracks.length =
      ((splitOnChar '\n' text.data).filter isTrackLine).length ∧
    processLine st raw = (commitTrack st, some ⟨0, "", "", "", "", "", 0⟩) := by
  refine ⟨parse_map_number text, ?_, processLine_track_bad st hpre hbad⟩
  have h := congrArg List.length (parse_map_number text)
  simpa [declaredTrackNums] using h

/-- Witness for C10: a malformed TRACK body opens a default track even
when the sheet-level file context is nonempty. -/
theorem C10_one_track_per_line_witness :
    startsWithLit "TRACK" (pyStrip "TRACKBAD".data) = true ∧
    trackMatch (pyStrip "TRACKBAD".data) = none ∧
    ((parse_cue_file "REM X\nTRACK 01 AUDIO\nTRACK 2 AUDIO").tracks.map
        CueTrack.number =
      declaredTrackNums "REM X\nTRACK 01 AUDIO\nTRACK 2 AUDIO" ∧
    (parse_cue_file "REM X\nTRACK 01 AUDIO\nTRACK 2 AUDIO").tracks.length =
      ((splitOnChar '\n' ("REM X\nTRACK 01 AUDIO\nTRACK 2 AUDIO" : String).data).filter
        isTrackLine).length ∧
    processLine ((⟨"", "", "y.flac", "WAVE", []⟩ : CueSheet),
        some (⟨3, "", "", "", "", "", 0⟩ : CueTrack)) "TRACKBAD".data =
      (commitTrack ((⟨"", "", "y.flac", "WAVE", []⟩ : CueSheet),
          some (⟨3, "", "", "", "", "", 0⟩ : CueTrack)),
        some ⟨0, "", "", "", "", "", 0⟩)) :=
  ⟨by decide, by decide,
    C10_one_track_per_line "REM X\nTRACK 01 AUDIO\nTRACK 2 AUDIO"
      ((⟨"", "", "y.flac", "WAVE", []⟩ : CueSheet),
        some (⟨3, "", "", "", "", "", 0⟩ : CueTrack)) "TRACKBAD".data
      (by decide) (by decide)⟩

end CueToM3u
